import Mathlib

set_option maxHeartbeats 1000000

/-
Verification development for the goxmldsig signing subsystem.

The Go sources modelled here are sign.go (SigningContext and signature
construction), the constants and algorithm registries, the TLS keystore
(GetKeyPair and GetChain) and clock.go. XML elements are modelled as a
tree of elements and text nodes; attributes carry an explicit space and
key, mirroring etree.Attr. Machine integers do not occur on any modelled
path; crypto.Hash values are the small Go constants (SHA1 = 3,
SHA256 = 5, SHA512 = 7). External collaborators (the SHA hash functions,
RSA signing, DER certificate parsing, and the canonicalizers, which live
outside the provided sources) are passed in as explicit function
parameters, so every theorem quantifies over them where the Go code
delegates to them.
-/

namespace Dsig

/-! Constants from the algorithm registry source file. -/

def DefaultPfx : String := "ds"

def EmptyPfx : String := ""

def Namespace : String := "http://www.w3.org/2000/09/xmldsig#"

def SignatureTag : String := "Signature"

def SignedInfoTag : String := "SignedInfo"

def CanonicalizationMethodTag : String := "CanonicalizationMethod"

def SignatureMethodTag : String := "SignatureMethod"

def ReferenceTag : String := "Reference"

def TransformsTag : String := "Transforms"

def TransformTag : String := "Transform"

def DigestMethodTag : String := "DigestMethod"

def DigestValueTag : String := "DigestValue"

def SignatureValueTag : String := "SignatureValue"

def KeyInfoTag : String := "KeyInfo"

def X509DataTag : String := "X509Data"

def X509SubjectNameTag : String := "X509SubjectName"

def X509CertificateTag : String := "X509Certificate"

def InclusiveNamespacesTag : String := "InclusiveNamespaces"

def AlgorithmAttr : String := "Algorithm"

def URIAttr : String := "URI"

def PfxListAttr : String := "PrefixList"

def RSASHA1SignatureMethod : String := "http://www.w3.org/2000/09/xmldsig#rsa-sha1"

def RSASHA256SignatureMethod : String := "http://www.w3.org/2001/04/xmldsig-more#rsa-sha256"

def RSASHA512SignatureMethod : String := "http://www.w3.org/2001/04/xmldsig-more#rsa-sha512"

def CanonicalXML10ExclusiveAlgorithmID : String := "http://www.w3.org/2001/10/xml-exc-c14n#"

def CanonicalXML11AlgorithmID : String := "http://www.w3.org/2006/12/xml-c14n11"

def CanonicalXML10RecAlgorithmID : String := "http://www.w3.org/TR/2001/REC-xml-c14n-20010315"

def CanonicalXML10CommentAlgorithmID : String := "http://www.w3.org/TR/2001/REC-xml-c14n-20010315#WithComments"

def EnvelopedSignatureAltorithmID : String := "http://www.w3.org/2000/09/xmldsig#enveloped-signature"

/-! The crypto.Hash constants of the Go standard library, and the
registry maps built from digestAlgorithmIdentifiers and
signatureMethodIdentifiers (the ...ByIdentifier maps are the inverses
built by the init function). -/

def cryptoSHA1 : Nat := 3

def cryptoSHA256 : Nat := 5

def cryptoSHA512 : Nat := 7

def digestAlgorithmIdentifiers (hash : Nat) : Option String :=
  if hash = cryptoSHA1 then some "http://www.w3.org/2000/09/xmldsig#sha1"
  else if hash = cryptoSHA256 then some "http://www.w3.org/2001/04/xmlenc#sha256"
  else if hash = cryptoSHA512 then some "http://www.w3.org/2001/04/xmlenc#sha512"
  else none

def signatureMethodIdentifiers (hash : Nat) : Option String :=
  if hash = cryptoSHA1 then some RSASHA1SignatureMethod
  else if hash = cryptoSHA256 then some RSASHA256SignatureMethod
  else if hash = cryptoSHA512 then some RSASHA512SignatureMethod
  else none

def signatureMethodsByIdentifier (identifier : String) : Option Nat :=
  if identifier = RSASHA1SignatureMethod then some cryptoSHA1
  else if identifier = RSASHA256SignatureMethod then some cryptoSHA256
  else if identifier = RSASHA512SignatureMethod then some cryptoSHA512
  else none

def digestAlgorithmsByIdentifier (identifier : String) : Option Nat :=
  if identifier = "http://www.w3.org/2000/09/xmldsig#sha1" then some cryptoSHA1
  else if identifier = "http://www.w3.org/2001/04/xmlenc#sha256" then some cryptoSHA256
  else if identifier = "http://www.w3.org/2001/04/xmlenc#sha512" then some cryptoSHA512
  else none

/-- The output size in bytes of a crypto.Hash (crypto.Hash.Size of the
Go standard library, restricted to the hashes the registry knows). -/
def hashSize (hash : Nat) : Nat :=
  if hash = cryptoSHA1 then 20
  else if hash = cryptoSHA256 then 32
  else if hash = cryptoSHA512 then 64
  else 0

/-- The output length in bytes of a digest algorithm named by its URI,
used to state the DigestValue length invariant of the spec. -/
def digestOutputLengths (uri : String) : Option Nat :=
  if uri = "http://www.w3.org/2000/09/xmldsig#sha1" then some 20
  else if uri = "http://www.w3.org/2001/04/xmlenc#sha256" then some 32
  else if uri = "http://www.w3.org/2001/04/xmlenc#sha512" then some 64
  else none

/-! The XML tree model. An attribute carries space, key and value like
etree.Attr; an element carries a space, a tag, attributes and children. -/

structure XAttr where
  space : String
  key : String
  value : String
deriving DecidableEq

mutual

inductive XTree where
  | elem (space tag : String) (attrs : List XAttr) (children : XForest)
  | text (content : String)
deriving DecidableEq

inductive XForest where
  | nil
  | cons (t : XTree) (ts : XForest)
deriving DecidableEq

end

def XForest.ofList : List XTree → XForest
  | [] => .nil
  | t :: ts => .cons t (XForest.ofList ts)

def XForest.append : XForest → XForest → XForest
  | .nil, g => g
  | .cons t ts, g => .cons t (ts.append g)

def XForest.toList : XForest → List XTree
  | .nil => []
  | .cons t ts => t :: ts.toList

def XTree.spaceOf : XTree → String
  | .elem sp _ _ _ => sp
  | .text _ => ""

def XTree.tagOf : XTree → String
  | .elem _ tag _ _ => tag
  | .text _ => ""

def XTree.attrsOf : XTree → List XAttr
  | .elem _ _ attrs _ => attrs
  | .text _ => []

def XTree.childrenOf : XTree → XForest
  | .elem _ _ _ ch => ch
  | .text _ => .nil

/-- Look up the value of the attribute with the given space and key
(first match, as etree.SelectAttr does). -/
def attrLookup (attrs : List XAttr) (space key : String) : Option String :=
  (attrs.find? (fun a => a.space == space && a.key == key)).map (fun a => a.value)

/-- etree SelectAttrValue for a plain key (no colon): the key is
decomposed to an empty space and the key itself. -/
def selectAttrValue (t : XTree) (key dflt : String) : String :=
  match attrLookup t.attrsOf "" key with
  | some v => v
  | none => dflt

/-- Remove the first attribute with the given space and key, as
etree.RemoveAttr does for a qualified key. -/
def removeAttrFirst : List XAttr → String → String → List XAttr
  | [], _, _ => []
  | a :: rest, sp, k =>
      if a.space = sp ∧ a.key = k then rest else a :: removeAttrFirst rest sp k

def removeAttrRoot (t : XTree) (sp k : String) : XTree :=
  match t with
  | .elem esp tag attrs ch => .elem esp tag (removeAttrFirst attrs sp k) ch
  | .text s => .text s

/-! Prefix usage and namespace declarations on trees, needed to state
the detachment invariant. A namespace declaration is an attribute with
space "xmlns" (declaring its key as prefix) or the bare attribute
"xmlns" (declaring the default namespace, prefix ""). -/

/-- The prefix a non-declaration attribute uses, if any. -/
def usedAttrSpace (a : XAttr) : Option String :=
  if a.space = "" ∨ a.space = "xmlns" then none else some a.space

mutual

def usedSpaces : XTree → List String
  | .text _ => []
  | .elem sp _ attrs ch =>
      (if sp = "" then [] else [sp]) ++ attrs.filterMap usedAttrSpace ++ usedSpacesL ch
termination_by structural t => t

def usedSpacesL : XForest → List String
  | .nil => []
  | .cons t ts => usedSpaces t ++ usedSpacesL ts
termination_by structural f => f

end

/-- Does this attribute declare the prefix p. -/
def isDeclFor (p : String) (a : XAttr) : Bool :=
  if p = "" then a.space == "" && a.key == "xmlns" else a.space == "xmlns" && a.key == p

def declaresPfxAttr (attrs : List XAttr) (p : String) : Bool :=
  attrs.any (isDeclFor p)

mutual

def declaresIn : XTree → String → Bool
  | .text _, _ => false
  | .elem _ _ attrs ch, p => declaresPfxAttr attrs p || declaresInF ch p
termination_by structural t => t

def declaresInF : XForest → String → Bool
  | .nil, _ => false
  | .cons t ts, p => declaresIn t p || declaresInF ts p
termination_by structural f => f

end

/-- Is the prefix p declared strictly inside t (below the root). -/
def declaredStrictlyInside (t : XTree) (p : String) : Bool :=
  declaresInF t.childrenOf p

/-- The URI the root of t declares for prefix p, if any. -/
def rootDeclValue (t : XTree) (p : String) : Option String :=
  (t.attrsOf.find? (isDeclFor p)).map (fun a => a.value)

/-! Namespace contexts. Modelled from the spec: the etreeutils package
(NSContext, NSBuildParentContext, SubContext, NSDetatch) is code of this
repository that is not among the provided sources. A context is an
ordered prefix-to-URI mapping with nearer declarations first, as the
spec describes: nearer declarations override farther ones. -/

abbrev NSContext : Type := List (String × String)

def nsLookup (c : NSContext) (p : String) : Option String :=
  ((List.find? (fun kv => kv.1 == p)) c).map (fun kv => kv.2)

/-- The namespace declarations an element carries on its own attributes. -/
def elemDecls (t : XTree) : List (String × String) :=
  t.attrsOf.filterMap (fun a =>
    if a.space = "" ∧ a.key = "xmlns" then some ("", a.value)
    else if a.space = "xmlns" then some (a.key, a.value)
    else none)

/-- Modelled from the spec: sub_context overlays the elements own xmlns
declarations onto the current context. -/
def subContext (c : NSContext) (t : XTree) : NSContext :=
  elemDecls t ++ c

def dedupKeysAux (seen : List String) : List (String × String) → List (String × String)
  | [] => []
  | kv :: rest =>
      if seen.contains kv.1 then dedupKeysAux seen rest
      else kv :: dedupKeysAux (kv.1 :: seen) rest

/-- Keep only the nearest (first) declaration for each prefix. -/
def dedupKeys (c : List (String × String)) : List (String × String) :=
  dedupKeysAux [] c

/-- Render a prefix-to-URI pair as a namespace declaration attribute. -/
def declAttr (kv : String × String) : XAttr :=
  if kv.1 = "" then ⟨"", "xmlns", kv.2⟩ else ⟨"xmlns", kv.1, kv.2⟩

/-- Modelled from the spec: NSDetatch produces a standalone copy of the
element whose root carries explicit declarations for the in-scope
namespaces, inlining every declaration of the context whose prefix the
root does not already declare itself. -/
def nsDetatch (c : NSContext) (t : XTree) : XTree :=
  match t with
  | .text s => .text s
  | .elem sp tag attrs ch =>
      .elem sp tag
        ((((dedupKeys c).filter (fun kv => !(declaresPfxAttr attrs kv.1))).map declAttr) ++ attrs)
        ch

/-! Base64 (encoding/base64 StdEncoding over byte lists). -/

def b64Alphabet : List Char :=
  "ABCDEFGHIJKLMNOPQRSTUVWXYZabcdefghijklmnopqrstuvwxyz0123456789+/".data

def b64Char (n : Nat) : Char := b64Alphabet.getD n '?'

def b64Val (c : Char) : Nat := b64Alphabet.findIdx (fun x => x == c)

def b64encodeList : List Nat → List Char
  | [] => []
  | [b1] => [b64Char (b1 / 4), b64Char (b1 % 4 * 16), '=', '=']
  | [b1, b2] => [b64Char (b1 / 4), b64Char (b1 % 4 * 16 + b2 / 16), b64Char (b2 % 16 * 4), '=']
  | b1 :: b2 :: b3 :: rest =>
      b64Char (b1 / 4) :: b64Char (b1 % 4 * 16 + b2 / 16) ::
      b64Char (b2 % 16 * 4 + b3 / 64) :: b64Char (b3 % 64) :: b64encodeList rest

def b64decodeList : List Char → List Nat
  | c1 :: c2 :: c3 :: c4 :: rest =>
      if c3 = '=' then [b64Val c1 * 4 + b64Val c2 / 16]
      else if c4 = '=' then
        [b64Val c1 * 4 + b64Val c2 / 16, b64Val c2 % 16 * 16 + b64Val c3 / 4]
      else
        (b64Val c1 * 4 + b64Val c2 / 16) :: (b64Val c2 % 16 * 16 + b64Val c3 / 4) ::
        (b64Val c3 % 4 * 64 + b64Val c4) :: b64decodeList rest
  | _ => []

def b64encode (bs : List Nat) : String := String.mk (b64encodeList bs)

def b64decode (s : String) : List Nat := b64decodeList s.data

/-! Key stores and external crypto primitives. -/

structure RSAKey where
  keyID : Nat
deriving DecidableEq

structure Cert where
  subject : String
  raw : List Nat
deriving DecidableEq

/-- The X509KeyStore interface: GetKeyPair yields a private key and the
leaf certificate, or an error. -/
structure X509KeyStore where
  getKeyPair : Except String (RSAKey × Cert)

end Dsig

namespace Dsig

/-! Canonicalizers. Modelled from the spec: canonicalize.go is not among
the provided sources. Per the spec data model a canonicalizer is a value
carrying an algorithm URI (equivalently a variant tag) and, for the
exclusive variants, an InclusiveNamespaces prefix list. -/

inductive C14NVariant where
  | excl10
  | rec10
  | rec10Comments
  | c14n11
deriving DecidableEq

structure Canonicalizer where
  variant : C14NVariant
  pfxList : String
deriving DecidableEq

def Canonicalizer.algorithm : Canonicalizer → String
  | ⟨.excl10, _⟩ => CanonicalXML10ExclusiveAlgorithmID
  | ⟨.rec10, _⟩ => CanonicalXML10RecAlgorithmID
  | ⟨.rec10Comments, _⟩ => CanonicalXML10CommentAlgorithmID
  | ⟨.c14n11, _⟩ => CanonicalXML11AlgorithmID

def canonicalizationAlgorithmIDs : List String :=
  [CanonicalXML10ExclusiveAlgorithmID, CanonicalXML11AlgorithmID,
   CanonicalXML10RecAlgorithmID, CanonicalXML10CommentAlgorithmID]

/-- Modelled from the spec: the C14N 1.1 canonicalizer constructor. -/
def MakeC14N11Canonicalizer : Canonicalizer := ⟨.c14n11, ""⟩

/-- Modelled from the spec: the C14N 1.0 REC canonicalizer constructor. -/
def MakeC14N10RecCanonicalizer : Canonicalizer := ⟨.rec10, ""⟩

/-- The external primitives the signing code delegates to: the hash
function selected by a crypto.Hash value, RSA PKCS1 v1.5 signing, and
the canonicalizer implementations (which live outside the provided
sources and are parameters of every theorem). -/
structure CPrims where
  hashFn : Nat → List Nat → List Nat
  rsaSign : RSAKey → Nat → List Nat → Except String (List Nat)
  canonFn : Canonicalizer → XTree → Except String (List Nat)

end Dsig

namespace Dsig

/-! The signing context (sign.go). -/

structure SigningContext where
  hash : Nat
  keyStore : X509KeyStore
  idAttribute : String
  pfx : String
  canonicalizer : Canonicalizer

/-- Modelled from the spec: the default ID attribute name, declared in
the validation source file which is not among the provided sources. -/
def DefaultIDAttr : String := "ID"

/-- Modelled from the spec: the KYC-mode ID attribute name, declared in
the validation source file which is not among the provided sources. -/
def KYCIDAttr : String := "id"

def NewDefaultSigningContext (ks : X509KeyStore) : SigningContext :=
  { hash := cryptoSHA256
    keyStore := ks
    idAttribute := DefaultIDAttr
    pfx := DefaultPfx
    canonicalizer := MakeC14N11Canonicalizer }

def NewKYCSigningContext (ks : X509KeyStore) : SigningContext :=
  { hash := cryptoSHA1
    keyStore := ks
    idAttribute := KYCIDAttr
    pfx := EmptyPfx
    canonicalizer := MakeC14N10RecCanonicalizer }

/-- SetSignatureMethod. The Go method mutates the receiver and returns
an error; here the updated context is returned together with the error,
the pair (receiver after the call, returned error). -/
def SigningContext.SetSignatureMethod (ctx : SigningContext) (algorithmID : String) :
    SigningContext × Option String :=
  match signatureMethodsByIdentifier algorithmID with
  | some hash => ({ ctx with hash := hash }, none)
  | none => (ctx, some ("Unknown SignatureMethod: " ++ algorithmID))

def SigningContext.GetSignatureMethodIdentifier (ctx : SigningContext) : String :=
  (signatureMethodIdentifiers ctx.hash).getD ""

def SigningContext.GetDigestAlgorithmIdentifier (ctx : SigningContext) : String :=
  (digestAlgorithmIdentifiers ctx.hash).getD ""

/-- digest: canonicalize the element, then hash the canonical octets. -/
def SigningContext.digest (p : CPrims) (ctx : SigningContext) (el : XTree) :
    Except String (List Nat) :=
  match p.canonFn ctx.canonicalizer el with
  | .error e => .error e
  | .ok canonical => .ok (p.hashFn ctx.hash canonical)

/-- createNamespacedElement: the new child carries the context prefix. -/
def envTransformElem (ctx : SigningContext) : XTree :=
  .elem ctx.pfx TransformTag [⟨"", AlgorithmAttr, EnvelopedSignatureAltorithmID⟩] .nil

def canonTransformElem (ctx : SigningContext) : XTree :=
  .elem ctx.pfx TransformTag [⟨"", AlgorithmAttr, ctx.canonicalizer.algorithm⟩] .nil

/-- The children forest of the SignedInfo element constructSignedInfo
builds: CanonicalizationMethod, SignatureMethod, then the Reference with
its Transforms (enveloped first when requested, canonicalization last),
DigestMethod and DigestValue. -/
def signedInfoChildren (ctx : SigningContext)
    (signatureMethodIdentifier digestAlgorithmIdentifier dataID : String)
    (enveloped : Bool) (dg : List Nat) : XForest :=
  .ofList
    [.elem ctx.pfx CanonicalizationMethodTag [⟨"", AlgorithmAttr, ctx.canonicalizer.algorithm⟩] .nil,
     .elem ctx.pfx SignatureMethodTag [⟨"", AlgorithmAttr, signatureMethodIdentifier⟩] .nil,
     .elem ctx.pfx ReferenceTag [⟨"", URIAttr, "#" ++ dataID⟩] (.ofList
       [.elem ctx.pfx TransformsTag [] (.ofList
          ((if enveloped then [envTransformElem ctx] else []) ++ [canonTransformElem ctx])),
        .elem ctx.pfx DigestMethodTag [⟨"", AlgorithmAttr, digestAlgorithmIdentifier⟩] .nil,
        .elem ctx.pfx DigestValueTag [] (.ofList [.text (b64encode dg)])])]

/-- The SignedInfo element tree constructSignedInfo builds on success. -/
def signedInfoTree (ctx : SigningContext)
    (signatureMethodIdentifier digestAlgorithmIdentifier dataID : String)
    (enveloped : Bool) (dg : List Nat) : XTree :=
  .elem ctx.pfx SignedInfoTag []
    (signedInfoChildren ctx signatureMethodIdentifier digestAlgorithmIdentifier dataID
      enveloped dg)

/-- constructSignedInfo, with the checks in source order: unsupported
hash, unsupported signature method, canonicalization/digest failure,
then the missing data ID check. -/
def SigningContext.constructSignedInfo (p : CPrims) (ctx : SigningContext) (el : XTree)
    (enveloped : Bool) : Except String XTree :=
  if ctx.GetDigestAlgorithmIdentifier = "" then .error "unsupported hash mechanism"
  else if ctx.GetSignatureMethodIdentifier = "" then .error "unsupported signature method"
  else match ctx.digest p el with
  | .error e => .error e
  | .ok dg =>
      if selectAttrValue el ctx.idAttribute "" = "" then .error "Missing data ID"
      else .ok (signedInfoTree ctx ctx.GetSignatureMethodIdentifier
        ctx.GetDigestAlgorithmIdentifier (selectAttrValue el ctx.idAttribute "") enveloped dg)

/-- The xmlns attribute ConstructSignature places on the Signature
element: bare xmlns for the empty prefix, xmlns:p otherwise. -/
def xmlnsAttr (ctx : SigningContext) : XAttr :=
  if ctx.pfx = "" then ⟨"", "xmlns", Namespace⟩ else ⟨"xmlns", ctx.pfx, Namespace⟩

/-- The detachment steps of ConstructSignature: build the Signature
shell around SignedInfo, cascade the namespace contexts (the parent
context of the signed element, the element itself, then the Signature),
detach SignedInfo with the scope inlined, and finally remove the
xmlns:xsi declaration. The parent context stands for the result of
NSBuildParentContext on the signed element, whose ancestors are not part
of the element value. -/
def detachSignedInfoStep (ctx : SigningContext) (parentCtx : NSContext)
    (el signedInfo : XTree) : XTree :=
  removeAttrRoot
    (nsDetatch
      (subContext (subContext parentCtx el)
        (.elem ctx.pfx SignatureTag [xmlnsAttr ctx] (.ofList [signedInfo])))
      signedInfo)
    "xmlns" "xsi"

/-- The namespace scope in force at the final enveloped location of the
SignedInfo: the Signature declaration over the signed elements own
declarations over its ancestors. -/
def scopeAtSignature (ctx : SigningContext) (parentCtx : NSContext) (el : XTree) : NSContext :=
  subContext (subContext parentCtx el)
    (.elem ctx.pfx SignatureTag [xmlnsAttr ctx] .nil)

/-- The detached SignedInfo that ConstructSignature canonicalizes and
signs. -/
def SigningContext.detachedSignedInfo (p : CPrims) (ctx : SigningContext)
    (parentCtx : NSContext) (el : XTree) (enveloped : Bool) : Except String XTree :=
  match ctx.constructSignedInfo p el enveloped with
  | .error e => .error e
  | .ok signedInfo => .ok (detachSignedInfoStep ctx parentCtx el signedInfo)

/-- ConstructSignature: build SignedInfo, detach it with the namespace
scope inlined, digest and RSA-sign the detached form, then assemble the
Signature element with SignatureValue and KeyInfo. -/
def SigningContext.ConstructSignature (p : CPrims) (ctx : SigningContext)
    (parentCtx : NSContext) (el : XTree) (enveloped : Bool) : Except String XTree :=
  match ctx.constructSignedInfo p el enveloped with
  | .error e => .error e
  | .ok signedInfo =>
    match ctx.digest p (detachSignedInfoStep ctx parentCtx el signedInfo) with
    | .error e => .error e
    | .ok dg =>
      match ctx.keyStore.getKeyPair with
      | .error e => .error e
      | .ok (key, cert) =>
        match p.rsaSign key ctx.hash dg with
        | .error e => .error e
        | .ok rawSignature =>
          .ok (.elem ctx.pfx SignatureTag [xmlnsAttr ctx] (.ofList
            [signedInfo,
             .elem ctx.pfx SignatureValueTag [] (.ofList [.text (b64encode rawSignature)]),
             .elem ctx.pfx KeyInfoTag [] (.ofList
               [.elem ctx.pfx X509DataTag [] (.ofList
                 ([.elem ctx.pfx X509CertificateTag [] (.ofList [.text (b64encode cert.raw)])] ++
                  (if cert.subject = "" then []
                   else [.elem ctx.pfx X509SubjectNameTag [] (.ofList [.text cert.subject])])))])]))

/-- SignEnveloped: construct the signature with the enveloped transform,
copy the input element and append the signature as its last child. -/
def SigningContext.SignEnveloped (p : CPrims) (ctx : SigningContext)
    (parentCtx : NSContext) (el : XTree) : Except String XTree :=
  match ctx.ConstructSignature p parentCtx el true with
  | .error e => .error e
  | .ok sig =>
      .ok (.elem el.spaceOf el.tagOf el.attrsOf (el.childrenOf.append (.ofList [sig])))

/-! The TLS certificate key store. -/

def ErrNonRSAKey : String := "Private key was not RSA"

def ErrMissingCertificates : String := "No public certificates provided"

/-- A Go crypto.PrivateKey: the type assertion in GetKeyPair either
finds an RSA key or some other key type. -/
inductive GoPrivateKey where
  | rsa (k : RSAKey)
  | other (description : String)
deriving DecidableEq

structure TLSCertKeyStore where
  privateKey : GoPrivateKey
  certificate : List (List Nat)
deriving DecidableEq

/-- GetKeyPair over an abstract DER certificate parser (the x509
package is external). -/
def TLSCertKeyStore.GetKeyPair (parseCertificate : List Nat → Except String Cert)
    (d : TLSCertKeyStore) : Except String (RSAKey × Cert) :=
  match d.privateKey with
  | .other _ => .error ErrNonRSAKey
  | .rsa pk =>
    match d.certificate with
    | [] => .error ErrMissingCertificates
    | c0 :: _ =>
      match parseCertificate c0 with
      | .error _ => .error ErrMissingCertificates
      | .ok crt => .ok (pk, crt)

/-- The loop body of GetChain: a blob that fails to parse is skipped
with continue, a parsed certificate is appended. -/
def getChainLoop (parseCertificate : List Nat → Except String Cert) :
    List (List Nat) → List Cert
  | [] => []
  | c :: rest =>
      match parseCertificate c with
      | .error _ => getChainLoop parseCertificate rest
      | .ok crt => crt :: getChainLoop parseCertificate rest

def TLSCertKeyStore.GetChain (parseCertificate : List Nat → Except String Cert)
    (d : TLSCertKeyStore) : Except String (List Cert) :=
  .ok (getChainLoop parseCertificate d.certificate)

def exceptToOption : Except String Cert → Option Cert
  | .error _ => none
  | .ok c => some c

/-! The clock (clock.go). A Go nil pointer receiver is modelled as none;
the wrapped clockwork.Clock is either the real system clock or a fake
clock frozen at an instant. -/

inductive CWClock where
  | realClock
  | fakeClock (instant : Int)
deriving DecidableEq

structure Clock where
  wrapped : CWClock
deriving DecidableEq

/-- getWrapped: a nil receiver falls back to a real clock. -/
def getWrapped : Option Clock → CWClock
  | none => CWClock.realClock
  | some c => c.wrapped

def cwNow (sysNow : Int) : CWClock → Int
  | .realClock => sysNow
  | .fakeClock t => t

/-- Clock.Now, given the current system time as the meaning of the real
clock. -/
def clockNow (sysNow : Int) (c : Option Clock) : Int :=
  cwNow sysNow (getWrapped c)

/-- The wrapped clock that Clock.After delegates to. -/
def clockAfterDelegate (c : Option Clock) : CWClock := getWrapped c

/-- The wrapped clock that Clock.Sleep delegates to. -/
def clockSleepDelegate (c : Option Clock) : CWClock := getWrapped c

def NewRealClock : Option Clock := some ⟨CWClock.realClock⟩

/-! Read-only accessors on a SignedInfo tree, used to state properties
of the constructed Reference. -/

def findChild (t : XTree) (tag : String) : Option XTree :=
  t.childrenOf.toList.find? (fun c => c.tagOf == tag)

def firstText (t : XTree) : Option String :=
  match t.childrenOf with
  | .cons (.text s) _ => some s
  | _ => none

def refElemOf (si : XTree) : Option XTree := findChild si ReferenceTag

def refURI (si : XTree) : Option String :=
  (refElemOf si).bind (fun r => attrLookup r.attrsOf "" URIAttr)

def refTransformList (si : XTree) : Option (List XTree) :=
  ((refElemOf si).bind (fun r => findChild r TransformsTag)).map (fun t => t.childrenOf.toList)

def refDigestValueText (si : XTree) : Option String :=
  ((refElemOf si).bind (fun r => findChild r DigestValueTag)).bind firstText

def refDigestMethodAlg (si : XTree) : Option String :=
  ((refElemOf si).bind (fun r => findChild r DigestMethodTag)).bind
    (fun d => attrLookup d.attrsOf "" AlgorithmAttr)

/-- A Transform element whose Algorithm attribute names one of the four
registered canonicalization algorithms. -/
def isCanonTransform (t : XTree) : Bool :=
  t.tagOf == TransformTag &&
    (match attrLookup t.attrsOf "" AlgorithmAttr with
     | some a => canonicalizationAlgorithmIDs.contains a
     | none => false)

/-- A Transform element whose Algorithm attribute names the enveloped
signature transform. -/
def isEnvTransform (t : XTree) : Bool :=
  t.tagOf == TransformTag &&
    attrLookup t.attrsOf "" AlgorithmAttr == some EnvelopedSignatureAltorithmID

/-! Concrete toy instantiations of the external primitives, used by the
witness and counterexample theorems. -/

def toyCert : Cert := ⟨"", []⟩

def toyPrims : CPrims :=
  { hashFn := fun h _ => List.replicate (hashSize h) 0
    rsaSign := fun _ _ _ => .ok [0]
    canonFn := fun _ _ => .ok [1] }

def toyKeyStore : X509KeyStore := ⟨.ok (⟨0⟩, toyCert)⟩

def toyCtx : SigningContext :=
  { hash := cryptoSHA256
    keyStore := toyKeyStore
    idAttribute := DefaultIDAttr
    pfx := DefaultPfx
    canonicalizer := MakeC14N11Canonicalizer }

def toyEl : XTree := .elem "" "Doc" [⟨"", "ID", "x"⟩] .nil

def toyElNoID : XTree := .elem "" "Doc" [] .nil

def xsiCtx : SigningContext :=
  { hash := cryptoSHA256
    keyStore := toyKeyStore
    idAttribute := DefaultIDAttr
    pfx := "xsi"
    canonicalizer := MakeC14N11Canonicalizer }

/-- The detached SignedInfo the xsi-prefixed context produces on the toy
element, used by the counterexample. -/
def xsiDet : XTree :=
  match SigningContext.detachedSignedInfo toyPrims xsiCtx [] toyEl true with
  | .ok det => det
  | .error _ => .text ""

/-- The SignedInfo the toy context produces on the toy element. -/
def toySignedInfo : XTree :=
  match SigningContext.constructSignedInfo toyPrims toyCtx toyEl true with
  | .ok si => si
  | .error _ => .text ""

/-- The signed document SignEnveloped returns on the toy element. -/
def toyRet : XTree :=
  match SigningContext.SignEnveloped toyPrims toyCtx [] toyEl with
  | .ok r => r
  | .error _ => .text ""

/-- The detached SignedInfo the toy context produces on the toy
element. -/
def toyDet : XTree :=
  match SigningContext.detachedSignedInfo toyPrims toyCtx [] toyEl true with
  | .ok d => d
  | .error _ => .text ""

def badParse : List Nat → Except String Cert := fun _ => .error "asn1: structure error"

def goodParse : List Nat → Except String Cert := fun _ => .ok toyCert

def cexStoreChain : TLSCertKeyStore := { privateKey := .rsa ⟨0⟩, certificate := [[48]] }

def cexStoreKeyPair : TLSCertKeyStore := { privateKey := .rsa ⟨0⟩, certificate := [[48]] }

def goodStoreKeyPair : TLSCertKeyStore := { privateKey := .rsa ⟨7⟩, certificate := [[48], [49]] }

end Dsig

namespace Dsig

/-! Base64 lemmas. -/

theorem b64Val_b64Char_fin : ∀ n : Fin 64, b64Val (b64Char n.val) = n.val := by decide

theorem b64Char_ne_pad : ∀ n : Fin 64, b64Char n.val ≠ '=' := by decide

theorem b64Val_b64Char (n : Nat) (h : n < 64) : b64Val (b64Char n) = n :=
  b64Val_b64Char_fin ⟨n, h⟩

theorem b64Char_ne_eq (n : Nat) (h : n < 64) : b64Char n ≠ '=' :=
  b64Char_ne_pad ⟨n, h⟩

theorem b64_roundtripList : ∀ bs : List Nat, (∀ b ∈ bs, b < 256) →
    b64decodeList (b64encodeList bs) = bs
  | [], _ => rfl
  | [b1], h => by
      have h1 : b1 < 256 := h b1 (by simp)
      rw [b64encodeList, b64decodeList, if_pos rfl]
      rw [b64Val_b64Char _ (by omega), b64Val_b64Char _ (by omega)]
      simp only [List.cons.injEq, and_true]
      omega
  | [b1, b2], h => by
      have h1 : b1 < 256 := h b1 (by simp)
      have h2 : b2 < 256 := h b2 (by simp)
      rw [b64encodeList, b64decodeList,
        if_neg (b64Char_ne_eq (b2 % 16 * 4) (by omega)), if_pos rfl]
      rw [b64Val_b64Char _ (by omega), b64Val_b64Char _ (by omega), b64Val_b64Char _ (by omega)]
      simp only [List.cons.injEq, and_true]
      omega
  | b1 :: b2 :: b3 :: rest, h => by
      have h1 : b1 < 256 := h b1 (by simp)
      have h2 : b2 < 256 := h b2 (by simp)
      have h3 : b3 < 256 := h b3 (by simp)
      have ih := b64_roundtripList rest (fun b hb => h b (by simp [hb]))
      rw [b64encodeList]
      rw [b64decodeList]
      rw [if_neg (b64Char_ne_eq (b2 % 16 * 4 + b3 / 64) (by omega)),
        if_neg (b64Char_ne_eq (b3 % 64) (by omega))]
      rw [b64Val_b64Char _ (by omega), b64Val_b64Char _ (by omega),
        b64Val_b64Char _ (by omega), b64Val_b64Char _ (by omega)]
      rw [ih]
      simp only [List.cons.injEq, and_true, and_self, eq_self_iff_true]
      omega

theorem b64_roundtrip (bs : List Nat) (h : ∀ b ∈ bs, b < 256) :
    b64decode (b64encode bs) = bs :=
  b64_roundtripList bs h

/-! Registry lemmas. -/

theorem digestAlgId_ne_empty (h : Nat) (d : String)
    (hd : digestAlgorithmIdentifiers h = some d) : d ≠ "" := by
  unfold digestAlgorithmIdentifiers at hd
  split_ifs at hd <;> (injection hd with h'; subst h'; decide)

theorem sigMethodId_ne_empty (h : Nat) (s : String)
    (hs : signatureMethodIdentifiers h = some s) : s ≠ "" := by
  unfold signatureMethodIdentifiers at hs
  split_ifs at hs <;> (injection hs with h'; subst h'; decide)

theorem digestOutputLengths_hashSize (h : Nat) (d : String)
    (hd : digestAlgorithmIdentifiers h = some d) :
    digestOutputLengths d = some (hashSize h) := by
  unfold digestAlgorithmIdentifiers at hd
  split_ifs at hd <;>
    (injection hd with h'; subst h'; simp_all [hashSize, digestOutputLengths, cryptoSHA1,
      cryptoSHA256, cryptoSHA512])

/-- C8: NewDefaultSigningContext configures SHA256, the ID attribute,
the ds prefix and the C14N 1.1 canonicalizer; NewKYCSigningContext
configures SHA1, the id attribute, the empty prefix and the C14N 1.0
REC canonicalizer. -/
theorem NewSigningContext_defaults (ks : X509KeyStore) :
    NewDefaultSigningContext ks =
      { hash := cryptoSHA256, keyStore := ks, idAttribute := "ID", pfx := "ds",
        canonicalizer := ⟨C14NVariant.c14n11, ""⟩ } ∧
    NewKYCSigningContext ks =
      { hash := cryptoSHA1, keyStore := ks, idAttribute := "id", pfx := "",
        canonicalizer := ⟨C14NVariant.rec10, ""⟩ } :=
  ⟨rfl, rfl⟩

/-- C10: every Clock method guards with getWrapped, which maps a nil
receiver to a real system clock, so Now on a nil Clock returns the
system time and After and Sleep delegate to the real clock. -/
theorem Clock_nil_falls_back_to_real :
    getWrapped none = CWClock.realClock ∧
    (∀ sysNow : Int, clockNow sysNow none = sysNow) ∧
    clockAfterDelegate none = CWClock.realClock ∧
    clockSleepDelegate none = CWClock.realClock :=
  ⟨rfl, fun _ => rfl, rfl, rfl⟩

/-- C3: SetSignatureMethod on a registered URI succeeds and sets only
the hash; on an unregistered URI it returns an error and leaves the
context unchanged. The registered URIs are exactly the three RSA
signature method URIs. -/
theorem SetSignatureMethod_spec (ctx : SigningContext) (u : String) :
    (∀ h, signatureMethodsByIdentifier u = some h →
      ctx.SetSignatureMethod u = ({ ctx with hash := h }, none)) ∧
    (signatureMethodsByIdentifier u = none →
      ctx.SetSignatureMethod u = (ctx, some ("Unknown SignatureMethod: " ++ u))) ∧
    ((signatureMethodsByIdentifier u).isSome = true ↔
      u = RSASHA1SignatureMethod ∨ u = RSASHA256SignatureMethod ∨
        u = RSASHA512SignatureMethod) := by
  refine ⟨?_, ?_, ?_⟩
  · intro h hh
    simp [SigningContext.SetSignatureMethod, hh]
  · intro hh
    simp [SigningContext.SetSignatureMethod, hh]
  · unfold signatureMethodsByIdentifier
    split_ifs <;> simp_all

theorem SetSignatureMethod_spec_wit :
    toyCtx.SetSignatureMethod RSASHA256SignatureMethod =
      ({ toyCtx with hash := cryptoSHA256 }, none) ∧
    toyCtx.SetSignatureMethod "urn:unknown" =
      (toyCtx, some ("Unknown SignatureMethod: " ++ "urn:unknown")) :=
  ⟨(SetSignatureMethod_spec toyCtx RSASHA256SignatureMethod).1 cryptoSHA256 rfl,
   (SetSignatureMethod_spec toyCtx "urn:unknown").2.1 rfl⟩

/-! C6: GetChain. -/

theorem getChainLoop_filterMap (parse : List Nat → Except String Cert) (l : List (List Nat)) :
    getChainLoop parse l = l.filterMap (fun c => exceptToOption (parse c)) := by
  induction l with
  | nil => rfl
  | cons c rest ih =>
      cases hp : parse c <;> simp [getChainLoop, exceptToOption, hp, ih]

/-- C6 (amended): GetChain never returns an error; DER blobs that fail
to parse are silently skipped, and the returned chain consists of
exactly the certificates that parsed, in order. -/
theorem GetChain_skips_bad_certs (parse : List Nat → Except String Cert)
    (d : TLSCertKeyStore) :
    d.GetChain parse =
      Except.ok (d.certificate.filterMap (fun c => exceptToOption (parse c))) := by
  unfold TLSCertKeyStore.GetChain
  rw [getChainLoop_filterMap]

/-- C6 counterexample: a store whose single DER blob fails to parse.
GetChain returns ok with the certificate silently omitted, never the
parse error the claim requires. -/
theorem GetChain_swallows_error_cex :
    badParse [48] = Except.error "asn1: structure error" ∧
    cexStoreChain.GetChain badParse = Except.ok [] ∧
    (∀ e : String, cexStoreChain.GetChain badParse ≠ Except.error e) := by
  refine ⟨rfl, rfl, ?_⟩
  intro e he
  rw [show cexStoreChain.GetChain badParse = Except.ok [] from rfl] at he
  exact Except.noConfusion he

/-! C7: GetKeyPair. -/

/-- C7 (amended): GetKeyPair fails with the non-RSA error when the key
is not RSA, fails with the missing-certificates error when the
certificate list is empty AND ALSO when the first DER entry fails to
parse, and otherwise returns the RSA key with the parsed first
certificate as leaf. -/
theorem GetKeyPair_spec (parse : List Nat → Except String Cert) (d : TLSCertKeyStore) :
    (∀ s, d.privateKey = GoPrivateKey.other s →
      d.GetKeyPair parse = Except.error ErrNonRSAKey) ∧
    (∀ pk, d.privateKey = GoPrivateKey.rsa pk → d.certificate = [] →
      d.GetKeyPair parse = Except.error ErrMissingCertificates) ∧
    (∀ pk c0 rest e, d.privateKey = GoPrivateKey.rsa pk → d.certificate = c0 :: rest →
      parse c0 = Except.error e →
      d.GetKeyPair parse = Except.error ErrMissingCertificates) ∧
    (∀ pk c0 rest crt, d.privateKey = GoPrivateKey.rsa pk → d.certificate = c0 :: rest →
      parse c0 = Except.ok crt → d.GetKeyPair parse = Except.ok (pk, crt)) := by
  refine ⟨?_, ?_, ?_, ?_⟩ <;> intros <;> simp_all [TLSCertKeyStore.GetKeyPair]

theorem GetKeyPair_spec_wit :
    goodStoreKeyPair.GetKeyPair goodParse = Except.ok (⟨7⟩, toyCert) :=
  (GetKeyPair_spec goodParse goodStoreKeyPair).2.2.2 ⟨7⟩ [48] [[49]] toyCert rfl rfl rfl

/-- C7 counterexample: an RSA key and a nonempty certificate list whose
first DER entry fails to parse. The claim requires success with the
parsed leaf; the code returns the missing-certificates error. -/
theorem GetKeyPair_unparseable_leaf_cex :
    cexStoreKeyPair.privateKey = GoPrivateKey.rsa ⟨0⟩ ∧
    cexStoreKeyPair.certificate = [[48]] ∧
    badParse [48] = Except.error "asn1: structure error" ∧
    cexStoreKeyPair.GetKeyPair badParse = Except.error ErrMissingCertificates :=
  ⟨rfl, rfl, rfl, rfl⟩

/-! C9: missing ID attribute. -/

theorem constructSignedInfo_missingID (p : CPrims) (ctx : SigningContext) (el : XTree)
    (enveloped : Bool) (h : attrLookup el.attrsOf "" ctx.idAttribute = none) :
    ∃ e, ctx.constructSignedInfo p el enveloped = Except.error e := by
  unfold SigningContext.constructSignedInfo
  split
  · exact ⟨_, rfl⟩
  · split
    · exact ⟨_, rfl⟩
    · cases hd : ctx.digest p el with
      | error e => exact ⟨e, rfl⟩
      | ok dg =>
          have hsel : selectAttrValue el ctx.idAttribute "" = "" := by
            unfold selectAttrValue
            rw [h]
          refine ⟨"Missing data ID", ?_⟩
          simp [hsel]

/-- C9: when the configured ID attribute is absent from the element,
ConstructSignature fails with an error for every value of enveloped and
returns no Signature element. -/
theorem ConstructSignature_missingID (p : CPrims) (ctx : SigningContext)
    (parentCtx : NSContext) (el : XTree) (enveloped : Bool)
    (h : attrLookup el.attrsOf "" ctx.idAttribute = none) :
    ∃ e, ctx.ConstructSignature p parentCtx el enveloped = Except.error e := by
  obtain ⟨e, he⟩ := constructSignedInfo_missingID p ctx el enveloped h
  refine ⟨e, ?_⟩
  unfold SigningContext.ConstructSignature
  rw [he]

theorem ConstructSignature_missingID_wit :
    ∃ e, SigningContext.ConstructSignature toyPrims toyCtx [] toyElNoID true =
      Except.error e :=
  ConstructSignature_missingID toyPrims toyCtx [] toyElNoID true rfl

end Dsig

namespace Dsig

/-! Inversion of constructSignedInfo. -/

theorem constructSignedInfo_ok_inv (p : CPrims) (ctx : SigningContext) (el : XTree)
    (enveloped : Bool) (si : XTree)
    (h : ctx.constructSignedInfo p el enveloped = Except.ok si) :
    ∃ dg, ctx.digest p el = Except.ok dg ∧
      selectAttrValue el ctx.idAttribute "" ≠ "" ∧
      si = signedInfoTree ctx ctx.GetSignatureMethodIdentifier
        ctx.GetDigestAlgorithmIdentifier (selectAttrValue el ctx.idAttribute "")
        enveloped dg := by
  unfold SigningContext.constructSignedInfo at h
  split at h
  · exact Except.noConfusion h
  · split at h
    · exact Except.noConfusion h
    · split at h
      next e heq => exact Except.noConfusion h
      next dg heq =>
        split at h
        next hsel => exact Except.noConfusion h
        next hsel =>
          injection h with h'
          exact ⟨dg, heq, hsel, h'.symm⟩

/-! Transform classification lemmas. -/

theorem alg_mem_canonIDs (c : Canonicalizer) :
    canonicalizationAlgorithmIDs.contains c.algorithm = true := by
  rcases c with ⟨v, pl⟩
  cases v <;> rfl

theorem isCanonTransform_canonT (ctx : SigningContext) :
    isCanonTransform (canonTransformElem ctx) = true := by
  unfold isCanonTransform canonTransformElem
  rcases hv : ctx.canonicalizer with ⟨v, pl⟩
  cases v <;> rfl

theorem isCanonTransform_envT (ctx : SigningContext) :
    isCanonTransform (envTransformElem ctx) = false := rfl

theorem isEnvTransform_envT (ctx : SigningContext) :
    isEnvTransform (envTransformElem ctx) = true := rfl

/-- C4: in every SignedInfo produced by constructSignedInfo the
Reference holds exactly one canonicalization Transform, it is last, the
EnvelopedSignature Transform is present and precedes it exactly when
enveloped is requested, and the Reference URI is the hash sign prepended
to the elements ID attribute value. -/
theorem SignedInfo_transforms_spec (p : CPrims) (ctx : SigningContext) (el : XTree)
    (enveloped : Bool) (si : XTree)
    (h : ctx.constructSignedInfo p el enveloped = Except.ok si) :
    ∃ ts, refTransformList si = some ts ∧
      (ts.filter isCanonTransform).length = 1 ∧
      ts.getLast? = some (canonTransformElem ctx) ∧
      isCanonTransform (canonTransformElem ctx) = true ∧
      (enveloped = true →
        ts = [envTransformElem ctx, canonTransformElem ctx] ∧
        isEnvTransform (envTransformElem ctx) = true) ∧
      (enveloped = false → ts = [canonTransformElem ctx]) ∧
      refURI si = some ("#" ++ selectAttrValue el ctx.idAttribute "") := by
  obtain ⟨dg, hdg, hid, hsi⟩ := constructSignedInfo_ok_inv p ctx el enveloped si h
  subst hsi
  cases enveloped
  · refine ⟨[canonTransformElem ctx], rfl, ?_, rfl, isCanonTransform_canonT ctx,
      ?_, fun _ => rfl, rfl⟩
    · simp [List.filter, isCanonTransform_canonT ctx]
    · intro hcontra
      exact Bool.noConfusion hcontra
  · refine ⟨[envTransformElem ctx, canonTransformElem ctx], rfl, ?_, rfl,
      isCanonTransform_canonT ctx, fun _ => ⟨rfl, rfl⟩, ?_, rfl⟩
    · simp [List.filter, isCanonTransform_canonT ctx, isCanonTransform_envT ctx]
    · intro hcontra
      exact Bool.noConfusion hcontra

theorem SignedInfo_transforms_spec_wit :
    ∃ ts, refTransformList toySignedInfo = some ts ∧
      (ts.filter isCanonTransform).length = 1 ∧
      ts.getLast? = some (canonTransformElem toyCtx) ∧
      isCanonTransform (canonTransformElem toyCtx) = true ∧
      (true = true →
        ts = [envTransformElem toyCtx, canonTransformElem toyCtx] ∧
        isEnvTransform (envTransformElem toyCtx) = true) ∧
      (true = false → ts = [canonTransformElem toyCtx]) ∧
      refURI toySignedInfo = some ("#" ++ selectAttrValue toyEl toyCtx.idAttribute "") :=
  SignedInfo_transforms_spec toyPrims toyCtx toyEl true toySignedInfo rfl

/-- C5: when SignEnveloped succeeds on an element, the returned tree is
a copy of the input element (same space, tag and attributes) whose last
child is the constructed Signature; the input element value itself is
untouched, signing only appends to the copy. -/
theorem SignEnveloped_spec (p : CPrims) (ctx : SigningContext) (parentCtx : NSContext)
    (sp tag : String) (attrs : List XAttr) (ch : XForest) (ret : XTree)
    (h : ctx.SignEnveloped p parentCtx (XTree.elem sp tag attrs ch) = Except.ok ret) :
    ∃ sig, ctx.ConstructSignature p parentCtx (XTree.elem sp tag attrs ch) true =
        Except.ok sig ∧
      ret = XTree.elem sp tag attrs (ch.append (XForest.ofList [sig])) := by
  unfold SigningContext.SignEnveloped at h
  cases hc : ctx.ConstructSignature p parentCtx (XTree.elem sp tag attrs ch) true with
  | error e =>
      rw [hc] at h
      exact Except.noConfusion h
  | ok sig =>
      rw [hc] at h
      refine ⟨sig, rfl, ?_⟩
      injection h with h'
      exact h'.symm

theorem SignEnveloped_spec_wit :
    ∃ sig, SigningContext.ConstructSignature toyPrims toyCtx [] toyEl true =
        Except.ok sig ∧
      toyRet = XTree.elem "" "Doc" [⟨"", "ID", "x"⟩] (XForest.nil.append (XForest.ofList [sig])) :=
  SignEnveloped_spec toyPrims toyCtx [] "" "Doc" [⟨"", "ID", "x"⟩] XForest.nil toyRet rfl

/-- C1: the Reference that constructSignedInfo builds carries a
DigestValue equal to the base64 encoding of the configured hash of the
canonicalized octets of the element, the DigestMethod names the digest
algorithm of the configured hash, and the decoded DigestValue length
equals the output length of that declared DigestMethod. The hash
function is an external primitive; the two final hypotheses are its
contract (it yields hashSize bytes). -/
theorem Reference_digestValue_correct (p : CPrims) (ctx : SigningContext) (el : XTree)
    (enveloped : Bool) (canonical : List Nat) (dI : String)
    (hca : p.canonFn ctx.canonicalizer el = Except.ok canonical)
    (hdi : digestAlgorithmIdentifiers ctx.hash = some dI)
    (hsi : (signatureMethodIdentifiers ctx.hash).isSome = true)
    (hid : selectAttrValue el ctx.idAttribute "" ≠ "")
    (hbytes : ∀ b ∈ p.hashFn ctx.hash canonical, b < 256)
    (hlen : (p.hashFn ctx.hash canonical).length = hashSize ctx.hash) :
    ∃ si, ctx.constructSignedInfo p el enveloped = Except.ok si ∧
      refDigestValueText si = some (b64encode (p.hashFn ctx.hash canonical)) ∧
      refDigestMethodAlg si = some dI ∧
      digestOutputLengths dI =
        some ((b64decode (b64encode (p.hashFn ctx.hash canonical))).length) := by
  obtain ⟨sI, hsI⟩ := Option.isSome_iff_exists.mp hsi
  have hdg : ctx.digest p el = Except.ok (p.hashFn ctx.hash canonical) := by
    unfold SigningContext.digest
    rw [hca]
  have hDA : ctx.GetDigestAlgorithmIdentifier = dI := by
    unfold SigningContext.GetDigestAlgorithmIdentifier
    rw [hdi]
    rfl
  have hSM : ctx.GetSignatureMethodIdentifier = sI := by
    unfold SigningContext.GetSignatureMethodIdentifier
    rw [hsI]
    rfl
  have hok : ctx.constructSignedInfo p el enveloped = Except.ok (signedInfoTree ctx
      ctx.GetSignatureMethodIdentifier ctx.GetDigestAlgorithmIdentifier
      (selectAttrValue el ctx.idAttribute "") enveloped (p.hashFn ctx.hash canonical)) := by
    unfold SigningContext.constructSignedInfo
    rw [hdg]
    rw [if_neg (hDA ▸ digestAlgId_ne_empty ctx.hash dI hdi),
      if_neg (hSM ▸ sigMethodId_ne_empty ctx.hash sI hsI)]
    simp [if_neg hid]
  refine ⟨_, hok, rfl, ?_, ?_⟩
  · rw [hDA]
    rfl
  · rw [b64_roundtrip _ hbytes, hlen]
    exact digestOutputLengths_hashSize ctx.hash dI hdi

end Dsig

namespace Dsig

theorem Reference_digestValue_correct_wit :
    ∃ si, SigningContext.constructSignedInfo toyPrims toyCtx toyEl true = Except.ok si ∧
      refDigestValueText si = some (b64encode (toyPrims.hashFn toyCtx.hash [1])) ∧
      refDigestMethodAlg si = some "http://www.w3.org/2001/04/xmlenc#sha256" ∧
      digestOutputLengths "http://www.w3.org/2001/04/xmlenc#sha256" =
        some ((b64decode (b64encode (toyPrims.hashFn toyCtx.hash [1]))).length) :=
  Reference_digestValue_correct toyPrims toyCtx toyEl true [1]
    "http://www.w3.org/2001/04/xmlenc#sha256" rfl rfl rfl (by decide)
    (by
      intro b hb
      have hrepl : toyPrims.hashFn toyCtx.hash [1] = List.replicate 32 0 := rfl
      rw [hrepl] at hb
      rw [List.eq_of_mem_replicate hb]
      decide)
    rfl

end Dsig

namespace Dsig

/-! Detachment lemmas for the SignedInfo namespace invariant. -/

theorem detachedSignedInfo_ok_inv (p : CPrims) (ctx : SigningContext)
    (parentCtx : NSContext) (el : XTree) (enveloped : Bool) (det : XTree)
    (h : ctx.detachedSignedInfo p parentCtx el enveloped = Except.ok det) :
    ∃ si, ctx.constructSignedInfo p el enveloped = Except.ok si ∧
      det = detachSignedInfoStep ctx parentCtx el si := by
  unfold SigningContext.detachedSignedInfo at h
  cases hc : ctx.constructSignedInfo p el enveloped with
  | error e =>
      rw [hc] at h
      exact Except.noConfusion h
  | ok si =>
      rw [hc] at h
      injection h with h'
      exact ⟨si, rfl, h'.symm⟩

theorem elemDecls_sigShell (ctx : SigningContext) (sp : String) (ch : XForest) :
    elemDecls (XTree.elem sp SignatureTag [xmlnsAttr ctx] ch) = [(ctx.pfx, Namespace)] := by
  by_cases hp : ctx.pfx = "" <;>
    simp [elemDecls, xmlnsAttr, XTree.attrsOf, hp]

theorem subContext_sigShell (c : NSContext) (ctx : SigningContext) (sp : String)
    (ch : XForest) :
    subContext c (XTree.elem sp SignatureTag [xmlnsAttr ctx] ch) =
      (ctx.pfx, Namespace) :: c := by
  unfold subContext
  rw [elemDecls_sigShell]
  rfl

theorem filter_decl_nil (l : List (String × String)) :
    (l.filter (fun kv => !(declaresPfxAttr [] kv.1))) = l := by
  induction l with
  | nil => rfl
  | cons a t ih => simp [List.filter_cons, declaresPfxAttr, ih]

theorem detachStep_signedInfoTree (ctx : SigningContext) (parentCtx : NSContext)
    (el : XTree) (sI dI dataID : String) (enveloped : Bool) (dg : List Nat) :
    detachSignedInfoStep ctx parentCtx el (signedInfoTree ctx sI dI dataID enveloped dg) =
      XTree.elem ctx.pfx SignedInfoTag
        (removeAttrFirst
          (declAttr (ctx.pfx, Namespace) ::
            (dedupKeysAux [ctx.pfx] (subContext parentCtx el)).map declAttr)
          "xmlns" "xsi")
        (signedInfoChildren ctx sI dI dataID enveloped dg) := by
  unfold detachSignedInfoStep
  rw [subContext_sigShell]
  simp [signedInfoTree, nsDetatch, removeAttrRoot, dedupKeys, dedupKeysAux, filter_decl_nil]

theorem usedAttrSpace_declAttr (kv : String × String) :
    usedAttrSpace (declAttr kv) = none := by
  by_cases h : kv.1 = "" <;> simp [usedAttrSpace, declAttr, h]

theorem declAttr_value (kv : String × String) : (declAttr kv).value = kv.2 := by
  by_cases h : kv.1 = "" <;> simp [declAttr, h]

theorem mem_removeAttrFirst (a : XAttr) (L : List XAttr) (sp k : String)
    (h : a ∈ removeAttrFirst L sp k) : a ∈ L := by
  induction L with
  | nil => exact absurd h (by simp [removeAttrFirst])
  | cons b t ih =>
      simp only [removeAttrFirst] at h
      split at h
      · exact List.mem_cons_of_mem b h
      · rcases List.mem_cons.mp h with h1 | h2
        · subst h1
          exact List.mem_cons_self a t
        · exact List.mem_cons_of_mem b (ih h2)

theorem removeAttrFirst_cons_ne (a : XAttr) (L : List XAttr) (sp k : String)
    (h : ¬(a.space = sp ∧ a.key = k)) :
    removeAttrFirst (a :: L) sp k = a :: removeAttrFirst L sp k := by
  simp only [removeAttrFirst, if_neg h]

theorem declAttr_pfx_not_xsi (ctx : SigningContext) (u : String) (hpfx : ctx.pfx ≠ "xsi") :
    ¬((declAttr (ctx.pfx, u)).space = "xmlns" ∧ (declAttr (ctx.pfx, u)).key = "xsi") := by
  by_cases hp : ctx.pfx = "" <;> simp [declAttr, hp, hpfx]

theorem isDeclFor_declAttr_self (q u : String) : isDeclFor q (declAttr (q, u)) = true := by
  by_cases hq : q = "" <;> simp [isDeclFor, declAttr, hq]

theorem mem_usedSpacesL_signedInfoChildren (ctx : SigningContext)
    (sI dI dataID : String) (enveloped : Bool) (dg : List Nat) (q : String)
    (hq : q ∈ usedSpacesL (signedInfoChildren ctx sI dI dataID enveloped dg)) :
    q = ctx.pfx ∧ ctx.pfx ≠ "" := by
  by_cases hp : ctx.pfx = ""
  · exfalso
    cases enveloped <;>
      simp [signedInfoChildren, usedSpaces, usedSpacesL, usedAttrSpace, envTransformElem,
        canonTransformElem, XForest.ofList, hp] at hq
  · refine ⟨?_, hp⟩
    cases enveloped <;>
      · simp [signedInfoChildren, usedSpaces, usedSpacesL, usedAttrSpace, envTransformElem,
          canonTransformElem, XForest.ofList, hp] at hq
        tauto

/-- C2 (amended): in the detached SignedInfo that ConstructSignature
canonicalizes and signs, every prefix used within it and not declared
inside it is declared on the detached root with the URI in scope at its
final enveloped location, PROVIDED the configured prefix is not xsi:
after detaching, the code removes the xmlns:xsi declaration from the
detached SignedInfo, so an xsi prefix loses its declaration. -/
theorem DetachedSignedInfo_declares_used (p : CPrims) (ctx : SigningContext)
    (parentCtx : NSContext) (el : XTree) (enveloped : Bool) (det : XTree) (q : String)
    (hpfx : ctx.pfx ≠ "xsi")
    (h : ctx.detachedSignedInfo p parentCtx el enveloped = Except.ok det)
    (hq : q ∈ usedSpaces det)
    (hnd : declaredStrictlyInside det q = false) :
    ∃ u, nsLookup (scopeAtSignature ctx parentCtx el) q = some u ∧
      rootDeclValue det q = some u := by
  obtain ⟨si, hsi, hdet⟩ := detachedSignedInfo_ok_inv p ctx parentCtx el enveloped det h
  obtain ⟨dg, hdg, hid, hsitree⟩ := constructSignedInfo_ok_inv p ctx el enveloped si hsi
  subst hsitree
  subst hdet
  rw [detachStep_signedInfoTree] at hq ⊢
  rw [usedSpaces] at hq
  have hA0 : (removeAttrFirst
      (declAttr (ctx.pfx, Namespace) ::
        (dedupKeysAux [ctx.pfx] (subContext parentCtx el)).map declAttr)
      "xmlns" "xsi").filterMap usedAttrSpace = [] := by
    rw [List.filterMap_eq_nil_iff]
    intro a ha
    have ha' := mem_removeAttrFirst a _ "xmlns" "xsi" ha
    rcases List.mem_cons.mp ha' with h1 | h2
    · subst h1
      exact usedAttrSpace_declAttr _
    · obtain ⟨kv, _, hkv⟩ := List.mem_map.mp h2
      subst hkv
      exact usedAttrSpace_declAttr kv
  rw [hA0, List.append_nil] at hq
  have hqpfx : q = ctx.pfx ∧ ctx.pfx ≠ "" := by
    rcases List.mem_append.mp hq with h1 | h2
    · by_cases hp : ctx.pfx = ""
      · rw [if_pos hp] at h1
        simp at h1
      · rw [if_neg hp] at h1
        simp at h1
        exact ⟨h1, hp⟩
    · exact mem_usedSpacesL_signedInfoChildren ctx _ _ _ enveloped dg q h2
  obtain ⟨rfl, hpne⟩ := hqpfx
  refine ⟨Namespace, ?_, ?_⟩
  · unfold scopeAtSignature
    rw [subContext_sigShell]
    unfold nsLookup
    rw [List.find?_cons_of_pos _ (by simp)]
    rfl
  · rw [removeAttrFirst_cons_ne _ _ _ _ (declAttr_pfx_not_xsi ctx Namespace hpfx)]
    unfold rootDeclValue
    simp only [XTree.attrsOf]
    rw [List.find?_cons_of_pos _ (isDeclFor_declAttr_self ctx.pfx Namespace)]
    simp [declAttr_value]

theorem DetachedSignedInfo_declares_used_wit :
    ∃ u, nsLookup (scopeAtSignature toyCtx [] toyEl) "ds" = some u ∧
      rootDeclValue toyDet "ds" = some u :=
  DetachedSignedInfo_declares_used toyPrims toyCtx [] toyEl true toyDet "ds"
    (by decide) rfl (by decide) rfl

/-- C2 counterexample: with the configured prefix xsi, the detached
SignedInfo uses the prefix xsi on every element name, declares it
nowhere inside, and its root does not declare it either, because the
code strips xmlns:xsi after detaching. The claimed invariant fails for
the prefix xsi. -/
theorem Detach_xsi_stripped_cex :
    SigningContext.detachedSignedInfo toyPrims xsiCtx [] toyEl true = Except.ok xsiDet ∧
    "xsi" ∈ usedSpaces xsiDet ∧
    declaredStrictlyInside xsiDet "xsi" = false ∧
    rootDeclValue xsiDet "xsi" = none := by
  refine ⟨rfl, ?_, rfl, rfl⟩
  decide

end Dsig
